import Mathlib

/-!
Verification of the Medical Assistant front-end's core logic.

The analysis service (`cleanJSON`, `cleanTranscription`, `withTimeout`,
`analyzeMedicalInput`, `addWavHeader`, `generateVoiceResponse`) and the session
controller (`performAnalysis` in `App.tsx`) are embedded shallowly:

* JavaScript strings are `List Char` (`Str`); `String.prototype.trim` and the
  `\s` character class are embedded via `Char.isWhitespace`, which agrees with
  them on the ASCII texts at issue.
* The external world (API credential, image-compression success, the model
  call's resolution time and outcome, and the platform `JSON.parse`) is an
  explicit `Env` record; `JSON.parse` is an oracle `Str → Option ParsedReply`
  since the replies of interest are JSON objects with string-or-null values
  under the five keys the service reads.
* Promises are (resolution time, outcome) pairs; `Promise.race` against the
  timeout timer resolves to the underlying outcome exactly when it settles
  strictly before the timer fires.
* Thrown `Error` objects are the constructors of `SvcError`; rejections coming
  from the external call itself are wrapped in `SvcError.rejected`, keeping the
  object identity of the service's own errors.
* React state is the `SessionState` record; one run of the controller's
  `performAnalysis` is a `RunTrace` recording the state at the moment the
  request is issued (`pre`), the state after the run (`final`), and whether the
  run alerted the user or only logged a failure.
-/

namespace MedAssist

/-- JavaScript strings, embedded as lists of characters. -/
abbrev Str := List Char

/-- The `\s`/trim whitespace test (ASCII fragment). -/
def isWS (c : Char) : Bool := c.isWhitespace

/-- `String.prototype.trim`: drop leading and trailing whitespace. -/
def trimL (l : Str) : Str := ((l.dropWhile isWS).reverse.dropWhile isWS).reverse

/-- The suffix replace `\s*（triple backtick）$` of `cleanJSON`, which fires only
when the (already left-stripped) text ends in a backtick fence. -/
def stripFenceSuffix (l : Str) : Str :=
  let r := l.reverse
  if r.take 3 = ['\x60', '\x60', '\x60'] then ((r.drop 3).dropWhile isWS).reverse else l

/-- `cleanJSON` (service, lines 10-19): trim, then strip a leading
```` ```json ```` or ```` ``` ```` marker with following whitespace and a
trailing ```` ``` ```` marker with preceding whitespace. -/
def cleanJSON (text : Str) : Str :=
  let cleaned := trimL text
  if "```json".data.isPrefixOf cleaned then
    stripFenceSuffix ((cleaned.drop 7).dropWhile isWS)
  else if "```".data.isPrefixOf cleaned then
    stripFenceSuffix ((cleaned.drop 3).dropWhile isWS)
  else cleaned

/-- The placeholder tokens `cleanTranscription` collapses to empty. -/
def nullTokens : List Str :=
  ["null", "nil", "none", "undefined", "na", "n/a", "no audio"].map String.data

/-- Punctuation stripped by `cleanTranscription`'s `[.,!?;:]` class. -/
def isStripPunct (c : Char) : Bool :=
  c = '.' ∨ c = ',' ∨ c = '!' ∨ c = '?' ∨ c = ';' ∨ c = ':'

/-- `cleanTranscription` (service, lines 32-41): falsy input gives empty;
otherwise trim, and if lowercasing plus punctuation-stripping lands in the
placeholder list, give empty, else the trimmed text. -/
def cleanTranscription (text : Str) : Str :=
  if text = [] then []
  else
    let str := trimL text
    let lower := (str.map Char.toLower).filter (fun c => ¬ isStripPunct c)
    if lower ∈ nullTokens then [] else str

/-- Truthiness of an optional string field of the parsed reply: absent/null and
the empty string are falsy. -/
def truthy : Option Str → Bool
  | none => false
  | some s => !s.isEmpty

/-- The JSON object shape the service reads from the model reply: five keys,
each a string or absent/null. -/
structure ParsedReply where
  transcription : Option Str := none
  analysis_english : Option Str := none
  analysis : Option Str := none
  response : Option Str := none
  analysis_localized : Option Str := none
deriving DecidableEq, Repr

/-- `AnalysisResult` (types.ts). -/
structure AnalysisResult where
  transcription : Str
  analysis : Str
  localizedAnalysis : Option Str := none
deriving DecidableEq, Repr

/-- The fixed generic fallback substituted for a missing or implausibly short
analysis (service, line 227). -/
def fallbackMessage : Str :=
  ("I processed your input but could not generate a specific diagnosis. " ++
   "Please try providing more context or a clearer image.").data

/-- The key-fallback chain for the analysis field (service, lines 211-218):
`analysis_english`, else `analysis`, else `response`, each `String(...).trim()`;
empty when no key is truthy. -/
def analysisChain (parsed : ParsedReply) : Str :=
  if truthy parsed.analysis_english then trimL (parsed.analysis_english.getD [])
  else if truthy parsed.analysis then trimL (parsed.analysis.getD [])
  else if truthy parsed.response then trimL (parsed.response.getD [])
  else []

/-- The construction of the `AnalysisResult` from a successfully parsed reply
(service, lines 197-228): transcription cleaned then forced empty without
audio; analysis from the key chain; localized field only when truthy and the
language is not English; short or empty analysis replaced by the fallback. -/
def buildResult (parsed : ParsedReply) (hasAudio : Bool) (language : Str) :
    AnalysisResult :=
  let t0 : Str :=
    if truthy parsed.transcription then
      cleanTranscription (parsed.transcription.getD [])
    else []
  let t1 : Str := if hasAudio then t0 else []
  let a := analysisChain parsed
  let loc : Option Str :=
    if truthy parsed.analysis_localized ∧ language ≠ "English".data then
      some (trimL (parsed.analysis_localized.getD []))
    else none
  let aFinal := if a.isEmpty ∨ a.length < 5 then fallbackMessage else a
  { transcription := t1, analysis := aFinal, localizedAnalysis := loc }

/-- The distinct `Error` objects the analysis service can reject with, plus
`rejected` for a rejection of the external model call itself. -/
inductive SvcError where
  | missingKey
  | imageFailed
  | noInput
  | timeout (msg : Str)
  | emptyResponse
  | rejected (e : Str)
deriving DecidableEq, Repr

/-- The literal message of the analysis timeout error (service, line 185). -/
def timeoutMsg : Str :=
  "Analysis request timed out. Please try a smaller image or shorter audio.".data

/-- `withTimeout` (service, lines 44-56): a promise is a (resolution time,
outcome) pair; the race with the `ms` timer yields the underlying outcome when
it settles strictly before the timer, else a timeout rejection carrying
`errorMessage`. -/
def withTimeout {α : Type} (promise : Nat × Except SvcError α) (ms : Nat)
    (errorMessage : Str) : Except SvcError α :=
  if promise.1 < ms then promise.2 else .error (.timeout errorMessage)

/-- Wrap a rejection coming from the external call into `SvcError`. -/
def toSvc : Except Str Str → Except SvcError Str
  | .ok t => .ok t
  | .error e => .error (.rejected e)

/-- The environment of one `analyzeMedicalInput` call: the credential from the
process environment, whether image recompression succeeds, the external model
call as a (resolution time, outcome) promise, and the platform JSON parser as
an oracle on the cleaned reply text. -/
structure Env where
  apiKey : Str
  compressOk : Bool
  replyTime : Nat
  rawReply : Except Str Str
  parse : Str → Option ParsedReply

/-- `analyzeMedicalInput` (service, lines 58-243): credential check; audio and
image parts (a failing image recompression throws before anything else); the
no-input check on `parts.length === 0 && !userQuestion`; the model call under a
45000 ms timeout; the empty-reply check on `response.text`; then either the
parsed-reply construction or, on JSON parse failure, a best-effort result
carrying the raw reply text. The `history` argument only shapes the prompt. -/
def analyzeMedicalInput (env : Env) (audioBlob imageFile : Option Nat)
    (userQuestion history language : Str) : Except SvcError AnalysisResult :=
  if env.apiKey = [] then .error .missingKey
  else if imageFile.isSome ∧ env.compressOk = false then .error .imageFailed
  else if audioBlob = none ∧ imageFile = none ∧ userQuestion = [] then
    .error .noInput
  else
    match withTimeout (env.replyTime, toSvc env.rawReply) 45000 timeoutMsg with
    | .error e => .error e
    | .ok text =>
      if text = [] then .error .emptyResponse
      else
        match env.parse (cleanJSON text) with
        | some parsed => .ok (buildResult parsed audioBlob.isSome language)
        | none => .ok { transcription := [], analysis := text }

/-- The byte codes of an ASCII marker string, as `writeString` emits them. -/
def strBytes (s : String) : List Nat := s.data.map Char.toNat

/-- `DataView.setUint16(_, n, true)`: two little-endian bytes. -/
def u16le (n : Nat) : List Nat := [n % 256, n / 256 % 256]

/-- `DataView.setUint32(_, n, true)`: four little-endian bytes. -/
def u32le (n : Nat) : List Nat :=
  [n % 256, n / 256 % 256, n / 65536 % 256, n / 16777216 % 256]

/-- `addWavHeader` (service, lines 282-302): the 44-byte RIFF/WAVE header, in
the exact field order the source writes, followed by the sample bytes. -/
def addWavHeader (samples : List Nat) (sampleRate numChannels : Nat) :
    List Nat :=
  strBytes "RIFF" ++ u32le (36 + samples.length) ++
  strBytes "WAVE" ++ strBytes "fmt " ++
  u32le 16 ++ u16le 1 ++ u16le numChannels ++ u32le sampleRate ++
  u32le (sampleRate * numChannels * 2) ++ u16le (numChannels * 2) ++
  u16le 16 ++ strBytes "data" ++ u32le samples.length ++ samples

/-- Little-endian value of a byte list. -/
def readLE : List Nat → Nat
  | [] => 0
  | b :: rest => b + 256 * readLE rest

/-- Read back a little-endian 16-bit field at a byte offset. -/
def readU16 (bs : List Nat) (off : Nat) : Nat := readLE ((bs.drop off).take 2)

/-- Read back a little-endian 32-bit field at a byte offset. -/
def readU32 (bs : List Nat) (off : Nat) : Nat := readLE ((bs.drop off).take 4)

/-- The 44 header bytes for a 24 kHz mono 16-bit payload of `len` bytes, as a
normal form of `addWavHeader`'s output (192, 93 encode 24000; 128, 187 encode
the 48000 byte rate). -/
def wavHeaderBytes (len : Nat) : List Nat :=
  [82, 73, 70, 70] ++ u32le (36 + len) ++
  [87, 65, 86, 69, 102, 109, 116, 32,
   16, 0, 0, 0, 1, 0, 1, 0, 192, 93, 0, 0, 128, 187, 0, 0,
   2, 0, 16, 0, 100, 97, 116, 97] ++ u32le len

/-- The App state the controller's `performAnalysis` reads and writes: media
objects and URLs are reference identifiers, `===` is identifier equality. -/
structure SessionState where
  result : Option AnalysisResult
  lastAnalyzedImage : Option Nat
  isAnalyzing : Bool
  voiceResponseUrl : Option Nat
  questionText : Str
  audioBlob : Option Nat
deriving DecidableEq, Repr

/-- One run of the controller's `performAnalysis`: whether the no-input alert
fired, whether a request was issued, the `isFollowUp` classification, the state
at the moment the request is issued (`pre`, equal to the initial state when no
request is issued), the state after the run, and whether an analysis failure
was written to the log. -/
structure RunTrace where
  alerted : Bool
  started : Bool
  followUp : Bool
  pre : SessionState
  final : SessionState
  loggedError : Bool
deriving DecidableEq, Repr

/-- JavaScript `a || b` on an optional string: absent and empty are falsy. -/
def jsOrStr : Option Str → Str → Str
  | some s, d => if s = [] then d else s
  | none, d => d

/-- `performAnalysis` (App.tsx, lines 49-127): early alert-and-return without
inputs; otherwise classify the run via
`result !== null && currentImage === lastAnalyzedImage`, set the busy flag,
clear the displayed result when the run is fresh, clear the voice URL, and
issue the request. On failure only the log is written and the busy flag clears;
on success the result is stored (with the accumulated transcript on a
follow-up), voice synthesis is attempted with its failure swallowed, the
image/question/audio tracking state is updated, and the busy flag clears. The
outcomes of the two external calls are parameters. -/
def performAnalysis (s : SessionState) (currentAudio currentImage : Option Nat)
    (currentQuestion : Str) (analysisOutcome : Except SvcError AnalysisResult)
    (ttsOutcome : Except Str Nat) : RunTrace :=
  if currentAudio = none ∧ currentImage = none ∧ trimL currentQuestion = [] then
    { alerted := true, started := false, followUp := false, pre := s,
      final := s, loggedError := false }
  else
    let isFollowUp := s.result.isSome && (currentImage == s.lastAnalyzedImage)
    let s1 := { s with isAnalyzing := true }
    let s2 := if isFollowUp then s1 else { s1 with result := none }
    let s3 := { s2 with voiceResponseUrl := none }
    match analysisOutcome with
    | .error _ =>
      { alerted := false, started := true, followUp := isFollowUp, pre := s3,
        final := { s3 with isAnalyzing := false }, loggedError := true }
    | .ok ar =>
      let history := if isFollowUp then jsOrStr (s.result.map (·.analysis)) []
        else []
      let s4 :=
        if isFollowUp then
          let askedQuestion :=
            if currentQuestion ≠ [] then currentQuestion
            else if ar.transcription ≠ [] then ar.transcription
            else "Follow-up Question".data
          let newConversation :=
            history ++ "\n\n---\n\n**You asked:** ".data ++ askedQuestion ++
              "\n\n**AI Doctor:** ".data ++ ar.analysis
          let merged : AnalysisResult :=
            { transcription := ar.transcription, analysis := newConversation,
              localizedAnalysis := ar.localizedAnalysis }
          { s3 with result := some merged }
        else
          { s3 with result := some ar }
      let textToSpeak := jsOrStr ar.localizedAnalysis ar.analysis
      let s5 :=
        if textToSpeak ≠ [] then
          match ttsOutcome with
          | .ok url => { s4 with voiceResponseUrl := some url }
          | .error _ => s4
        else s4
      let s6 := { s5 with
        lastAnalyzedImage := currentImage, questionText := [],
        audioBlob := none }
      { alerted := false, started := true, followUp := isFollowUp, pre := s3,
        final := { s6 with isAnalyzing := false }, loggedError := false }

/-! ## Theorems -/

/-- C3: each of the placeholder values "null", "None", "N/A", "none.", "NONE!"
normalizes to the empty transcription, and every result the request builder
returns for a call without audio has an empty transcription field, whatever the
model reply contains. -/
theorem transcription_normalization :
    (cleanTranscription "null".data = [] ∧ cleanTranscription "None".data = [] ∧
     cleanTranscription "N/A".data = [] ∧ cleanTranscription "none.".data = [] ∧
     cleanTranscription "NONE!".data = []) ∧
    ∀ (env : Env) (img : Option Nat) (q hist lang : Str) (r : AnalysisResult),
      analyzeMedicalInput env none img q hist lang = .ok r →
      r.transcription = [] := by
  refine ⟨by decide, ?_⟩
  intro env img q hist lang r h
  unfold analyzeMedicalInput at h
  repeat' split at h
  all_goals cases h
  all_goals simp [buildResult]

/-- Witness for C3 at a concrete no-audio call whose reply parses. -/
theorem transcription_normalization_witness :
    (analyzeMedicalInput
        ⟨"k".data, true, 0, .ok "x".data, fun _ => some {}⟩
        none none "q".data [] "English".data
      = .ok { transcription := [], analysis := fallbackMessage }) ∧
    ({ transcription := [], analysis := fallbackMessage } :
        AnalysisResult).transcription = [] := by
  refine ⟨by rfl, ?_⟩
  exact (transcription_normalization.2
    ⟨"k".data, true, 0, .ok "x".data, fun _ => some {}⟩
    none "q".data [] "English".data
    { transcription := [], analysis := fallbackMessage } (by rfl))

/-- C4: the analysis field comes from `analysis_english`, else `analysis`, else
`response` (each trimmed), and whenever the value so obtained is absent or
shorter than 5 characters the result's analysis is the fixed fallback message;
otherwise it is that value. -/
theorem analysis_chain_and_fallback (parsed : ParsedReply) (hasAudio : Bool)
    (lang : Str) :
    ((analysisChain parsed).length < 5 →
      (buildResult parsed hasAudio lang).analysis = fallbackMessage) ∧
    (¬ (analysisChain parsed).length < 5 →
      (buildResult parsed hasAudio lang).analysis = analysisChain parsed) ∧
    (truthy parsed.analysis_english = true →
      analysisChain parsed = trimL (parsed.analysis_english.getD [])) ∧
    (truthy parsed.analysis_english = false → truthy parsed.analysis = true →
      analysisChain parsed = trimL (parsed.analysis.getD [])) ∧
    (truthy parsed.analysis_english = false → truthy parsed.analysis = false →
      truthy parsed.response = true →
      analysisChain parsed = trimL (parsed.response.getD [])) ∧
    (truthy parsed.analysis_english = false → truthy parsed.analysis = false →
      truthy parsed.response = false → analysisChain parsed = []) := by
  refine ⟨?_, ?_, ?_, ?_, ?_, ?_⟩
  · intro h
    simp only [buildResult]
    rw [if_pos (Or.inr h)]
  · intro h
    have hne : (analysisChain parsed).isEmpty = false := by
      rcases he : analysisChain parsed with _ | ⟨c, cs⟩
      · rw [he] at h; simp at h
      · rfl
    simp only [buildResult]
    rw [if_neg]
    simp [hne, h]
  · intro h1; simp [analysisChain, h1]
  · intro h1 h2; simp [analysisChain, h1, h2]
  · intro h1 h2 h3; simp [analysisChain, h1, h2, h3]
  · intro h1 h2 h3; simp [analysisChain, h1, h2, h3]

/-- Witness for C4: a reply whose primary key holds a two-character analysis
gets the fallback message. -/
theorem analysis_chain_and_fallback_witness :
    (buildResult { analysis_english := some "hi".data } true
        "English".data).analysis = fallbackMessage :=
  (analysis_chain_and_fallback { analysis_english := some "hi".data } true
    "English".data).1 (by decide)

/-- C5: with target language English the localized field is never populated,
both at the reply-construction level and for every result the request builder
returns; and it is populated only when the reply holds a truthy localized value
and the target language is not English. -/
theorem localized_only_when_nondefault (parsed : ParsedReply)
    (hasAudio : Bool) :
    (buildResult parsed hasAudio "English".data).localizedAnalysis = none ∧
    (∀ lang, (buildResult parsed hasAudio lang).localizedAnalysis ≠ none →
      truthy parsed.analysis_localized = true ∧ lang ≠ "English".data) ∧
    (∀ (env : Env) (audio img : Option Nat) (q hist : Str)
        (r : AnalysisResult),
      analyzeMedicalInput env audio img q hist "English".data = .ok r →
      r.localizedAnalysis = none) := by
  refine ⟨?_, ?_, ?_⟩
  · simp [buildResult]
  · intro lang h
    simp only [buildResult] at h
    by_cases hc : truthy parsed.analysis_localized = true ∧
        lang ≠ "English".data
    · exact hc
    · rw [if_neg hc] at h; simp at h
  · intro env audio img q hist r h
    unfold analyzeMedicalInput at h
    repeat' split at h
    all_goals cases h
    · simp [buildResult]
    · rfl

/-- Witness for C5 at a concrete reply carrying a localized value. -/
theorem localized_only_when_nondefault_witness :
    (buildResult { analysis_localized := some "hola".data } true
        "English".data).localizedAnalysis = none ∧
    truthy ({ analysis_localized := some "hola".data } :
        ParsedReply).analysis_localized = true ∧
    "Spanish".data ≠ "English".data := by
  refine ⟨(localized_only_when_nondefault
    { analysis_localized := some "hola".data } true).1, ?_⟩
  exact (localized_only_when_nondefault
    { analysis_localized := some "hola".data } true).2.1 "Spanish".data
    (by decide)

/-- Inversion: the no-input error can only come from the no-input check. -/
lemma noInput_inversion (env : Env) (audio img : Option Nat)
    (q hist lang : Str)
    (h : analyzeMedicalInput env audio img q hist lang = .error .noInput) :
    audio = none ∧ img = none ∧ q = [] := by
  unfold analyzeMedicalInput at h
  split at h
  · simp at h
  · split at h
    · simp at h
    · split at h
      · assumption
      · split at h
        · rename_i e hw
          injection h with h
          subst h
          unfold withTimeout at hw
          split at hw
          · rcases hr : env.rawReply with s | t <;> rw [hr] at hw <;>
              simp [toSvc] at hw
          · simp at hw
        · split at h
          · simp at h
          · split at h <;> simp at h

/-- C8: with the credential present and no audio, no image and no question
text, the builder fails with the no-input error whatever the network would
have answered (the check precedes the call); and whenever at least one of the
three inputs is supplied, the no-input error is never raised. -/
theorem no_input_rejection (env : Env) (audio img : Option Nat)
    (q hist lang : Str) :
    (env.apiKey ≠ [] →
      analyzeMedicalInput env none none [] hist lang = .error .noInput) ∧
    (¬ (audio = none ∧ img = none ∧ q = []) →
      analyzeMedicalInput env audio img q hist lang ≠ .error .noInput) := by
  constructor
  · intro hKey
    simp [analyzeMedicalInput, hKey]
  · intro hIn h
    exact hIn (noInput_inversion env audio img q hist lang h)

/-- Witness for C8: the empty call fails with the no-input error, and a call
carrying only a question never does. -/
theorem no_input_rejection_witness :
    (analyzeMedicalInput ⟨"k".data, true, 0, .ok "x".data, fun _ => none⟩
        none none [] [] "English".data = .error .noInput) ∧
    (analyzeMedicalInput ⟨"k".data, true, 0, .ok "x".data, fun _ => none⟩
        none none "q".data [] "English".data ≠ .error .noInput) := by
  constructor
  · exact (no_input_rejection
      ⟨"k".data, true, 0, .ok "x".data, fun _ => none⟩ none none [] []
      "English".data).1 (by decide)
  · exact (no_input_rejection
      ⟨"k".data, true, 0, .ok "x".data, fun _ => none⟩ none none "q".data []
      "English".data).2 (by simp)

/-- Inversion: a timeout rejection can only come from the deadline check. -/
lemma timeout_inversion (env : Env) (audio img : Option Nat)
    (q hist lang m : Str)
    (h : analyzeMedicalInput env audio img q hist lang =
      .error (.timeout m)) :
    45000 ≤ env.replyTime := by
  unfold analyzeMedicalInput at h
  split at h
  · simp at h
  · split at h
    · simp at h
    · split at h
      · simp at h
      · split at h
        · rename_i e hw
          injection h with h
          subst h
          unfold withTimeout at hw
          split at hw
          · rcases hr : env.rawReply with s | t <;> rw [hr] at hw <;>
              simp [toSvc] at hw
          · rename_i hlt
            simp only [] at hlt
            omega
        · split at h
          · simp at h
          · split at h <;> simp at h

/-- C9: under the preconditions that let the call reach the network (credential
present, image recompression succeeding, some input supplied), a model call
that has not resolved by the 45000 ms deadline makes the builder reject with
the literal timeout message regardless of the call's eventual outcome, and a
call that resolves strictly before the deadline never produces the timeout
rejection. -/
theorem analysis_timeout (env : Env) (audio img : Option Nat)
    (q hist lang : Str) (hKey : env.apiKey ≠ [])
    (hImg : img.isSome = true → env.compressOk = true)
    (hIn : ¬ (audio = none ∧ img = none ∧ q = [])) :
    (45000 ≤ env.replyTime →
      analyzeMedicalInput env audio img q hist lang =
        .error (.timeout timeoutMsg)) ∧
    (env.replyTime < 45000 →
      analyzeMedicalInput env audio img q hist lang ≠
        .error (.timeout timeoutMsg)) := by
  have hC : ¬ (img.isSome = true ∧ env.compressOk = false) := by
    rintro ⟨h1, h2⟩; rw [hImg h1] at h2; cases h2
  constructor
  · intro hLate
    unfold analyzeMedicalInput
    rw [if_neg (by simpa using hKey), if_neg hC, if_neg hIn]
    unfold withTimeout
    rw [if_neg (by omega)]
  · intro hEarly h
    have := timeout_inversion env audio img q hist lang timeoutMsg h
    omega

/-- Witness for C9: a call resolving at 45000 ms times out. -/
theorem analysis_timeout_witness :
    analyzeMedicalInput ⟨"k".data, true, 45000, .ok "x".data, fun _ => none⟩
        none none "q".data [] "English".data =
      .error (.timeout timeoutMsg) := by
  exact (analysis_timeout ⟨"k".data, true, 45000, .ok "x".data, fun _ => none⟩
    none none "q".data [] "English".data (by decide) (by intro h; cases h)
    (by simp)).1 (by decide)

/-- C10: a reply of "hi." — non-empty, under net accepted by `JSON.parse`
is impossible since it is not valid JSON, so the parse oracle answers none —
comes back verbatim as the analysis, with no fallback substitution and no
localized field on the parse-failure path; yet every result the builder
returns has a non-empty analysis, because an empty reply is rejected before
parsing. -/
theorem raw_reply_passthrough :
    (analyzeMedicalInput ⟨"k".data, true, 0, .ok "hi.".data, fun _ => none⟩
        none none "q".data [] "English".data =
      .ok { transcription := [], analysis := "hi.".data,
            localizedAnalysis := none }) ∧
    ("hi.".data ≠ [] ∧ "hi.".data.length < 5 ∧ "hi.".data ≠ fallbackMessage) ∧
    ∀ (env : Env) (audio img : Option Nat) (q hist lang : Str)
      (r : AnalysisResult),
      analyzeMedicalInput env audio img q hist lang = .ok r →
      r.analysis ≠ [] := by
  refine ⟨by rfl, by decide, ?_⟩
  intro env audio img q hist lang r h
  unfold analyzeMedicalInput at h
  repeat' split at h
  all_goals cases h
  · simp only [buildResult]
    split
    · decide
    · rename_i hcond
      intro he
      exact hcond (Or.inl (by simp [he]))
  · simpa using (by assumption : ¬ _ = ([] : Str))

/-- Witness for C10's universal part at the concrete parse-failure call. -/
theorem raw_reply_passthrough_witness :
    ({ transcription := [], analysis := "hi.".data,
       localizedAnalysis := none } : AnalysisResult).analysis ≠ [] := by
  exact raw_reply_passthrough.2.2
    ⟨"k".data, true, 0, .ok "hi.".data, fun _ => none⟩ none none "q".data []
    "English".data _ (by rfl)

/-- C1: a run of the session controller that passes the input check is
classified as a follow-up exactly when a prior result exists and the current
image reference equals the last-analyzed one (also when both are absent), and
a run not so classified has cleared the displayed result by the time the
request is issued. -/
theorem followUp_classification (s : SessionState)
    (audio img : Option Nat) (q : Str)
    (ao : Except SvcError AnalysisResult) (tts : Except Str Nat)
    (h : ¬ (audio = none ∧ img = none ∧ trimL q = [])) :
    ((performAnalysis s audio img q ao tts).followUp = true ↔
      (s.result ≠ none ∧ img = s.lastAnalyzedImage)) ∧
    ((performAnalysis s audio img q ao tts).followUp = false →
      (performAnalysis s audio img q ao tts).pre.result = none) := by
  unfold performAnalysis
  rw [if_neg h]
  rcases ao with e | ar
  · constructor
    · simp [Option.isSome_iff_ne_none]
    · intro hf
      simp only [] at hf ⊢
      rw [if_neg (by simp_all)]
  · constructor
    · simp [Option.isSome_iff_ne_none]
    · intro hf
      simp only [] at hf ⊢
      rw [if_neg (by simp_all)]

/-- Witness for C1: image unchanged (both absent) with a prior result is a
follow-up. -/
theorem followUp_classification_witness :
    ((performAnalysis
        { result := some { transcription := [], analysis := "abcde".data },
          lastAnalyzedImage := none, isAnalyzing := false,
          voiceResponseUrl := none, questionText := [], audioBlob := none }
        none none "q".data (.error .emptyResponse) (.error [])).followUp
      = true ↔
      (some { transcription := [], analysis := "abcde".data } ≠
          (none : Option AnalysisResult) ∧
        (none : Option Nat) = none)) := by
  have := (followUp_classification
    { result := some { transcription := [], analysis := "abcde".data },
      lastAnalyzedImage := none, isAnalyzing := false,
      voiceResponseUrl := none, questionText := [], audioBlob := none }
    none none "q".data (.error .emptyResponse) (.error []) (by decide)).1
  exact this

/-- C2 as amended: on an analysis failure the only state change after the
request was issued is clearing the busy flag — the result keeps the value it
had at the moment the request was issued (the displayed result was already
cleared then if the run was fresh) — and the failure is logged without
alerting the user. -/
theorem failure_clears_busy_only (s : SessionState) (audio img : Option Nat)
    (q : Str) (e : SvcError) (tts : Except Str Nat)
    (h : ¬ (audio = none ∧ img = none ∧ trimL q = [])) :
    ((performAnalysis s audio img q (.error e) tts).final =
      { (performAnalysis s audio img q (.error e) tts).pre with
          isAnalyzing := false }) ∧
    (performAnalysis s audio img q (.error e) tts).final.isAnalyzing = false ∧
    (performAnalysis s audio img q (.error e) tts).final.result =
      (performAnalysis s audio img q (.error e) tts).pre.result ∧
    (performAnalysis s audio img q (.error e) tts).alerted = false ∧
    (performAnalysis s audio img q (.error e) tts).loggedError = true := by
  unfold performAnalysis
  rw [if_neg h]
  refine ⟨rfl, rfl, rfl, rfl, rfl⟩

/-- Witness for C2's amended statement at a concrete failing fresh run. -/
theorem failure_clears_busy_only_witness :
    (performAnalysis
        { result := some { transcription := [], analysis := "abcde".data },
          lastAnalyzedImage := none, isAnalyzing := false,
          voiceResponseUrl := none, questionText := [], audioBlob := none }
        none (some 1) [] (.error (.rejected [])) (.error [])).final.isAnalyzing
      = false := by
  exact (failure_clears_busy_only
    { result := some { transcription := [], analysis := "abcde".data },
      lastAnalyzedImage := none, isAnalyzing := false,
      voiceResponseUrl := none, questionText := [], audioBlob := none }
    none (some 1) [] (.rejected []) (.error []) (by decide)).2.1

/-- C2, counterexample to the claim as stated: a fresh run with a displayed
prior result and a new image clears the result before the request, so when the
request fails the result no longer holds its start-of-operation value. -/
theorem failure_result_not_start_value :
    (performAnalysis
        { result := some { transcription := [], analysis := "abcde".data },
          lastAnalyzedImage := none, isAnalyzing := false,
          voiceResponseUrl := none, questionText := [], audioBlob := none }
        none (some 1) [] (.error (.rejected [])) (.error [])).final.result
      ≠ ({ result := some { transcription := [], analysis := "abcde".data },
           lastAnalyzedImage := none, isAnalyzing := false,
           voiceResponseUrl := none, questionText := [], audioBlob := none } :
          SessionState).result := by
  decide

/-- `addWavHeader` output in header-plus-payload normal form. -/
lemma wav_cons (samples : List Nat) :
    addWavHeader samples 24000 1 = wavHeaderBytes samples.length ++ samples := by
  simp [addWavHeader, wavHeaderBytes, strBytes, u32le, u16le]

/-- C6: wrapping a raw PCM byte buffer (as the voice requester does, at
24000 Hz mono) yields a 44-byte header followed by the samples byte for byte,
and reading the header back recovers the RIFF/WAVE/fmt/data markers, format
tag 1, channel count 1, sample rate 24000, bits-per-sample 16, a data-chunk
length equal to the buffer length and a RIFF chunk size of 36 plus that
length. The bound keeps the two 32-bit size fields below their wrap-around. -/
theorem wav_header_roundtrip (samples : List Nat)
    (h : samples.length + 36 < 4294967296) :
    addWavHeader samples 24000 1 = wavHeaderBytes samples.length ++ samples ∧
    (wavHeaderBytes samples.length).length = 44 ∧
    (addWavHeader samples 24000 1).drop 44 = samples ∧
    (addWavHeader samples 24000 1).take 4 = strBytes "RIFF" ∧
    ((addWavHeader samples 24000 1).drop 8).take 4 = strBytes "WAVE" ∧
    ((addWavHeader samples 24000 1).drop 12).take 4 = strBytes "fmt " ∧
    ((addWavHeader samples 24000 1).drop 36).take 4 = strBytes "data" ∧
    readU16 (addWavHeader samples 24000 1) 20 = 1 ∧
    readU16 (addWavHeader samples 24000 1) 22 = 1 ∧
    readU32 (addWavHeader samples 24000 1) 24 = 24000 ∧
    readU16 (addWavHeader samples 24000 1) 34 = 16 ∧
    readU32 (addWavHeader samples 24000 1) 40 = samples.length ∧
    readU32 (addWavHeader samples 24000 1) 4 = 36 + samples.length := by
  refine ⟨wav_cons samples, ?_, ?_, ?_, ?_, ?_, ?_, ?_, ?_, ?_, ?_, ?_, ?_⟩
  · simp [wavHeaderBytes, u32le]
  · rw [wav_cons]; rfl
  · rw [wav_cons]; rfl
  · rw [wav_cons]; rfl
  · rw [wav_cons]; rfl
  · rw [wav_cons]; rfl
  · rw [wav_cons]
    have e : readU16 (wavHeaderBytes samples.length ++ samples) 20 =
        readLE [1, 0] := rfl
    rw [e]; rfl
  · rw [wav_cons]
    have e : readU16 (wavHeaderBytes samples.length ++ samples) 22 =
        readLE [1, 0] := rfl
    rw [e]; rfl
  · rw [wav_cons]
    have e : readU32 (wavHeaderBytes samples.length ++ samples) 24 =
        readLE [192, 93, 0, 0] := rfl
    rw [e]; rfl
  · rw [wav_cons]
    have e : readU16 (wavHeaderBytes samples.length ++ samples) 34 =
        readLE [16, 0] := rfl
    rw [e]; rfl
  · rw [wav_cons]
    have e : readU32 (wavHeaderBytes samples.length ++ samples) 40 =
        samples.length % 256 + 256 * (samples.length / 256 % 256 +
          256 * (samples.length / 65536 % 256 +
            256 * (samples.length / 16777216 % 256 + 256 * 0))) := rfl
    rw [e]
    omega
  · rw [wav_cons]
    have e : readU32 (wavHeaderBytes samples.length ++ samples) 4 =
        (36 + samples.length) % 256 + 256 * ((36 + samples.length) / 256 % 256 +
          256 * ((36 + samples.length) / 65536 % 256 +
            256 * ((36 + samples.length) / 16777216 % 256 + 256 * 0))) := rfl
    rw [e]
    omega

/-- Witness for C6 on a concrete three-byte payload. -/
theorem wav_header_roundtrip_witness :
    (addWavHeader [7, 8, 9] 24000 1).drop 44 = [7, 8, 9] ∧
    readU32 (addWavHeader [7, 8, 9] 24000 1) 40 = 3 := by
  have h := wav_header_roundtrip [7, 8, 9] (by decide)
  exact ⟨h.2.2.1, h.2.2.2.2.2.2.2.2.2.2.2.1⟩

/-- A list whose last element is `d` reverses to `d` consed on something. -/
lemma reverse_cons_of_getLast (l : Str) (d : Char) (h : l.getLast? = some d) :
    ∃ r, l.reverse = d :: r := by
  cases hR : l.reverse with
  | nil =>
    have hl : l = [] := by simpa using congrArg List.reverse hR
    rw [hl] at h
    cases h
  | cons x xs =>
    have hx : l.getLast? = some x := by rw [← List.head?_reverse, hR]; rfl
    rw [h] at hx
    injection hx with hx
    subst hx
    exact ⟨xs, rfl⟩

/-- Trimming fixes a list with non-whitespace first and last characters. -/
lemma trimL_cons (c : Char) (l : Str) (d : Char) (r : Str)
    (hc : isWS c = false) (hd : isWS d = false)
    (hrev : (c :: l).reverse = d :: r) : trimL (c :: l) = c :: l := by
  unfold trimL
  rw [List.dropWhile_cons, if_neg (by simp [hc]), hrev, List.dropWhile_cons,
    if_neg (by simp [hd]), ← hrev, List.reverse_reverse]

/-- `trimL_cons` with the last character given through `getLast?`. -/
lemma trimL_cons_getLast (c : Char) (l : Str) (d : Char)
    (hc : isWS c = false) (hd : isWS d = false)
    (hlast : (c :: l).getLast? = some d) : trimL (c :: l) = c :: l := by
  obtain ⟨r, hrev⟩ := reverse_cons_of_getLast (c :: l) d hlast
  exact trimL_cons c l d r hc hd hrev

/-- The suffix strip removes a trailing newline-fence from a brace-delimited
text. -/
lemma stripFenceSuffix_fence (t : Str) (r : Str)
    (hrev : ('\x7b' :: t).reverse = '\x7d' :: r) :
    stripFenceSuffix (('\x7b' :: t) ++ "\n```".data) = '\x7b' :: t := by
  unfold stripFenceSuffix
  have h1 : (('\x7b' :: t) ++ "\n```".data).reverse =
      '\x60' :: '\x60' :: '\x60' :: '\n' :: ('\x7b' :: t).reverse := by
    simp
  rw [h1]
  dsimp only
  split
  · rw [show List.drop 3 ('\x60' :: '\x60' :: '\x60' :: '\n' :: ('\x7b' :: t).reverse) =
        '\n' :: ('\x7b' :: t).reverse from rfl]
    rw [List.dropWhile_cons, if_pos (by decide), hrev, List.dropWhile_cons,
      if_neg (by decide), ← hrev, List.reverse_reverse]
  · rename_i hcond
    exact absurd rfl hcond

/-- `cleanJSON` strips a ```` ```json ```` fence wrapped around a
brace-delimited text. -/
lemma cleanJSON_json_fence (t : Str) (r : Str)
    (hrev : ('\x7b' :: t).reverse = '\x7d' :: r) :
    cleanJSON ("```json\n".data ++ ('\x7b' :: t) ++ "\n```".data) =
      '\x7b' :: t := by
  have hF : "```json\n".data ++ ('\x7b' :: t) ++ "\n```".data =
      '\x60' :: '\x60' :: '\x60' :: 'j' :: 's' :: 'o' :: 'n' :: '\n' ::
        (('\x7b' :: t) ++ "\n```".data) := by
    rw [List.append_assoc]
    rfl
  have htrim : trimL ('\x60' :: '\x60' :: '\x60' :: 'j' :: 's' :: 'o' :: 'n' :: '\n' ::
      (('\x7b' :: t) ++ "\n```".data)) =
      '\x60' :: '\x60' :: '\x60' :: 'j' :: 's' :: 'o' :: 'n' :: '\n' ::
        (('\x7b' :: t) ++ "\n```".data) := by
    apply trimL_cons_getLast _ _ '\x60' (by decide) (by decide)
    rw [show ('\x60' :: '\x60' :: '\x60' :: 'j' :: 's' :: 'o' :: 'n' :: '\n' ::
        (('\x7b' :: t) ++ "\n```".data)) =
      ('\x60' :: '\x60' :: '\x60' :: 'j' :: 's' :: 'o' :: 'n' :: '\n' :: '\x7b' :: t) ++
        "\n```".data from by simp]
    rw [List.getLast?_append_of_ne_nil _ (by decide)]
    rfl
  unfold cleanJSON
  rw [hF]
  dsimp only
  rw [htrim]
  split
  · rw [show List.drop 7 ('\x60' :: '\x60' :: '\x60' :: 'j' :: 's' :: 'o' :: 'n' ::
        '\n' :: (('\x7b' :: t) ++ "\n```".data)) =
      '\n' :: (('\x7b' :: t) ++ "\n```".data) from rfl]
    rw [List.dropWhile_cons, if_pos (by decide)]
    rw [show ('\x7b' :: t) ++ "\n```".data =
      '\x7b' :: (t ++ "\n```".data) from rfl]
    rw [List.dropWhile_cons, if_neg (by decide)]
    exact stripFenceSuffix_fence t r hrev
  · rename_i hcond
    rw [show ("```json".data.isPrefixOf ('\x60' :: '\x60' :: '\x60' :: 'j' :: 's' ::
        'o' :: 'n' :: '\n' :: (('\x7b' :: t) ++ "\n```".data))) = true
      from rfl] at hcond
    exact absurd rfl hcond

/-- `cleanJSON` strips a bare ```` ``` ```` fence wrapped around a
brace-delimited text. -/
lemma cleanJSON_plain_fence (t : Str) (r : Str)
    (hrev : ('\x7b' :: t).reverse = '\x7d' :: r) :
    cleanJSON ("```\n".data ++ ('\x7b' :: t) ++ "\n```".data) =
      '\x7b' :: t := by
  have hF : "```\n".data ++ ('\x7b' :: t) ++ "\n```".data =
      '\x60' :: '\x60' :: '\x60' :: '\n' :: (('\x7b' :: t) ++ "\n```".data) := by
    rw [List.append_assoc]
    rfl
  have htrim : trimL ('\x60' :: '\x60' :: '\x60' :: '\n' ::
      (('\x7b' :: t) ++ "\n```".data)) =
      '\x60' :: '\x60' :: '\x60' :: '\n' :: (('\x7b' :: t) ++ "\n```".data) := by
    apply trimL_cons_getLast _ _ '\x60' (by decide) (by decide)
    rw [show ('\x60' :: '\x60' :: '\x60' :: '\n' ::
        (('\x7b' :: t) ++ "\n```".data)) =
      ('\x60' :: '\x60' :: '\x60' :: '\n' :: '\x7b' :: t) ++ "\n```".data
      from by simp]
    rw [List.getLast?_append_of_ne_nil _ (by decide)]
    rfl
  unfold cleanJSON
  rw [hF]
  dsimp only
  rw [htrim]
  split
  · rename_i hcond
    rw [show ("```json".data.isPrefixOf ('\x60' :: '\x60' :: '\x60' :: '\n' ::
        (('\x7b' :: t) ++ "\n```".data))) = false from rfl] at hcond
    cases hcond
  · split
    · rw [show List.drop 3 ('\x60' :: '\x60' :: '\x60' :: '\n' ::
          (('\x7b' :: t) ++ "\n```".data)) =
        '\n' :: (('\x7b' :: t) ++ "\n```".data) from rfl]
      rw [List.dropWhile_cons, if_pos (by decide)]
      rw [show ('\x7b' :: t) ++ "\n```".data =
        '\x7b' :: (t ++ "\n```".data) from rfl]
      rw [List.dropWhile_cons, if_neg (by decide)]
      exact stripFenceSuffix_fence t r hrev
    · rename_i hcond
      rw [show ("```".data.isPrefixOf ('\x60' :: '\x60' :: '\x60' :: '\n' ::
          (('\x7b' :: t) ++ "\n```".data))) = true from rfl] at hcond
      exact absurd rfl hcond

/-- `cleanJSON` fixes an unfenced brace-delimited text. -/
lemma cleanJSON_id (t : Str) (d : Char) (r : Str) (hd : isWS d = false)
    (hrev : ('\x7b' :: t).reverse = d :: r) :
    cleanJSON ('\x7b' :: t) = '\x7b' :: t := by
  have h1 : "```json".data.isPrefixOf ('\x7b' :: t) = false := rfl
  have h2 : "```".data.isPrefixOf ('\x7b' :: t) = false := rfl
  unfold cleanJSON
  rw [trimL_cons '\x7b' t d r (by decide) hd hrev]
  rw [if_neg (by simp [h1]), if_neg (by simp [h2])]

/-- A reply wrapped in a ```` ```json ```` fence. -/
def jsonFence (j : Str) : Str := "```json\n".data ++ j ++ "\n```".data

/-- A reply wrapped in a bare ```` ``` ```` fence. -/
def plainFence (j : Str) : Str := "```\n".data ++ j ++ "\n```".data

/-- C7: a reply consisting of a JSON object text (brace-delimited, accepted by
the parse oracle) wrapped in a ```` ```json ```` or bare ```` ``` ```` fence
yields the same `AnalysisResult` from the request builder as the identical
text without the fencing. -/
theorem fenced_reply_same_result (env : Env) (audio img : Option Nat)
    (q hist lang : Str) (t : Str) (obj : ParsedReply)
    (hlast : ('\x7b' :: t).getLast? = some '\x7d')
    (hparse : env.parse ('\x7b' :: t) = some obj) :
    (analyzeMedicalInput
        { env with rawReply := Except.ok (jsonFence ('\x7b' :: t)) }
        audio img q hist lang =
      analyzeMedicalInput { env with rawReply := Except.ok ('\x7b' :: t) }
        audio img q hist lang) ∧
    (analyzeMedicalInput
        { env with rawReply := Except.ok (plainFence ('\x7b' :: t)) }
        audio img q hist lang =
      analyzeMedicalInput { env with rawReply := Except.ok ('\x7b' :: t) }
        audio img q hist lang) := by
  obtain ⟨r, hrev⟩ := reverse_cons_of_getLast ('\x7b' :: t) '\x7d' hlast
  constructor
  · unfold jsonFence analyzeMedicalInput withTimeout toSvc
    dsimp only
    by_cases h1 : env.apiKey = []
    · rw [if_pos h1, if_pos h1]
    · rw [if_neg h1, if_neg h1]
      by_cases h2 : img.isSome = true ∧ env.compressOk = false
      · rw [if_pos h2, if_pos h2]
      · rw [if_neg h2, if_neg h2]
        by_cases h3 : audio = none ∧ img = none ∧ q = []
        · rw [if_pos h3, if_pos h3]
        · rw [if_neg h3, if_neg h3]
          by_cases h4 : env.replyTime < 45000
          · rw [if_pos h4, if_pos h4]
            dsimp only
            rw [if_neg (show ¬ ("```json\n".data ++ ('\x7b' :: t) ++
                "\n```".data) = [] from by simp)]
            rw [if_neg (show ¬ ('\x7b' :: t) = [] from by simp)]
            rw [cleanJSON_json_fence t r hrev,
              cleanJSON_id t '\x7d' r (by decide) hrev, hparse]
          · rw [if_neg h4, if_neg h4]
  · unfold plainFence analyzeMedicalInput withTimeout toSvc
    dsimp only
    by_cases h1 : env.apiKey = []
    · rw [if_pos h1, if_pos h1]
    · rw [if_neg h1, if_neg h1]
      by_cases h2 : img.isSome = true ∧ env.compressOk = false
      · rw [if_pos h2, if_pos h2]
      · rw [if_neg h2, if_neg h2]
        by_cases h3 : audio = none ∧ img = none ∧ q = []
        · rw [if_pos h3, if_pos h3]
        · rw [if_neg h3, if_neg h3]
          by_cases h4 : env.replyTime < 45000
          · rw [if_pos h4, if_pos h4]
            dsimp only
            rw [if_neg (show ¬ ("```\n".data ++ ('\x7b' :: t) ++
                "\n```".data) = [] from by simp)]
            rw [if_neg (show ¬ ('\x7b' :: t) = [] from by simp)]
            rw [cleanJSON_plain_fence t r hrev,
              cleanJSON_id t '\x7d' r (by decide) hrev, hparse]
          · rw [if_neg h4, if_neg h4]

/-- Witness for C7 at the JSON object text consisting of a bare brace pair. -/
theorem fenced_reply_same_result_witness :
    analyzeMedicalInput
        { apiKey := "k".data, compressOk := true, replyTime := 0,
          rawReply := Except.ok (jsonFence "\x7b\x7d".data),
          parse := fun s => if s = "\x7b\x7d".data then some {} else none }
        none none "q".data [] "English".data =
      analyzeMedicalInput
        { apiKey := "k".data, compressOk := true, replyTime := 0,
          rawReply := Except.ok "\x7b\x7d".data,
          parse := fun s => if s = "\x7b\x7d".data then some {} else none }
        none none "q".data [] "English".data := by
  exact (fenced_reply_same_result
    { apiKey := "k".data, compressOk := true, replyTime := 0,
      rawReply := Except.ok "\x7b\x7d".data,
      parse := fun s => if s = "\x7b\x7d".data then some {} else none }
    none none "q".data [] "English".data ['\x7d'] {} (by decide) (by rfl)).1

end MedAssist
